import Mathlib

/-!
Shallow embedding of the `crit/log` structured-logging library (Go).

Source files embedded: `levels.go` (the `Level` enumeration and its string
conversions) and `logger.go` (the `Logger` core: `New`, `With`, the severity
methods, the shared emission routine `output`, the `WriteLog` record and the
`Src.TruncateFile` path truncation).  Go standard-library functions the source
calls (`strings.ToLower`, `strings.FieldsFunc`, `filepath.Split`,
`filepath.Join`, `filepath.Clean`, `encoding/json.Marshal`) are modelled by
`go`-prefixed Lean functions faithful to their documented behaviour on the
inputs the source feeds them (ASCII strings, `/` as path separator).

Effects are made explicit: `time.Now` and `runtime.Caller` become parameters
of `Logger.output`; the bytes written to the sink become the `written` field
of the returned `OutputResult`; `os.Exit(1)` becomes the `exitCode` field of
`FatalResult`.  The mutex in `Logger` only guards the buffer snapshot/reset
and has no sequential content, so it is not represented.
-/

/-! ## levels.go -/

/-- `type Level int` with the eight `iota` constants `DebugLevel .. EmergencyLevel`.
Only the eight defined constants are ever produced by the package, so the
embedding uses an enumeration; `Level.toNat` recovers the `iota` integer value
used by Go's `<` comparison. -/
inductive Level where
  | debugLevel
  | infoLevel
  | noticeLevel
  | warningLevel
  | errorLevel
  | criticalLevel
  | alertLevel
  | emergencyLevel
  deriving DecidableEq

/-- The integer value of each constant (`iota` order in `levels.go`). -/
def Level.toNat : Level → Nat
  | .debugLevel => 0
  | .infoLevel => 1
  | .noticeLevel => 2
  | .warningLevel => 3
  | .errorLevel => 4
  | .criticalLevel => 5
  | .alertLevel => 6
  | .emergencyLevel => 7

/-- `var defaultLevel = NoticeLevel` -/
def defaultLevel : Level := .noticeLevel

/-- `var logLevelLabels = map[Level]string{...}` (total on the eight constants). -/
def logLevelLabels : Level → String
  | .debugLevel => "debug"
  | .infoLevel => "info"
  | .noticeLevel => "notice"
  | .warningLevel => "warning"
  | .errorLevel => "error"
  | .criticalLevel => "critical"
  | .alertLevel => "alert"
  | .emergencyLevel => "emergency"

/-- `var logLevelValues = map[string]Level{...}`; `none` models a missing key. -/
def logLevelValues : String → Option Level
  | "debug" => some .debugLevel
  | "info" => some .infoLevel
  | "notice" => some .noticeLevel
  | "warning" => some .warningLevel
  | "error" => some .errorLevel
  | "critical" => some .criticalLevel
  | "alert" => some .alertLevel
  | "emergency" => some .emergencyLevel
  | _ => none

/-- `func (l Level) String() string { return logLevelLabels[l] }` -/
def Level.String (l : Level) : String := logLevelLabels l

/-- Models `strings.ToLower`, character by character.  Go lowers Unicode
letters; `Char.toLower` lowers the ASCII range, which coincides with Go on
every ASCII string (all label-table keys are ASCII). -/
def goToLower (s : String) : String := String.mk (s.data.map Char.toLower)

/-- `func ToLevel(value string) Level`: lower-case the input, look it up in
`logLevelValues`, fall back to `defaultLevel` when the key is absent. -/
def ToLevel (value : String) : Level :=
  match logLevelValues (goToLower value) with
  | some level => level
  | none => defaultLevel

/-! ## Go standard-library path helpers used by `Src.TruncateFile`

The separator is `/` (`filepath.Separator` on the platforms this service
targets). -/

/-- Models `filepath.Split`: split after the final separator into
(directory including trailing separator, file name). -/
def goFilepathSplit (path : String) : String × String :=
  let cs := path.data
  let fileRev := cs.reverse.takeWhile (fun c => c ≠ '/')
  let dirRev := cs.reverse.drop fileRev.length
  (String.mk dirRev.reverse, String.mk fileRev.reverse)

/-- Models `strings.FieldsFunc` with the separator predicate: the maximal runs
of non-separator characters, empties dropped. -/
def goFieldsFunc (sep : Char) (s : String) : List String :=
  let step : List String × List Char → Char → List String × List Char :=
    fun st c =>
      if c = sep then
        (if st.2 = [] then st.1 else st.1 ++ [String.mk st.2.reverse], [])
      else
        (st.1, c :: st.2)
  let r := s.data.foldl step ([], [])
  if r.2 = [] then r.1 else r.1 ++ [String.mk r.2.reverse]

/-- One step of `path.Clean`'s component processing: `..` pops the last kept
component when one is poppable, is dropped at the root, and is kept when
nothing can be popped in a relative path; every other component is kept. -/
def goCleanStep (rooted : Bool) (stack : List String) (c : String) : List String :=
  if c = ".." then
    match stack.getLast? with
    | some last => if last = ".." then stack ++ [c] else stack.dropLast
    | none => if rooted then [] else [c]
  else
    stack ++ [c]

/-- Models `filepath.Clean` for `/`-separated paths: empty input becomes `.`,
empty and `.` components are dropped, `..` is resolved lexically, the rooted
flag restores the leading separator, and an empty result becomes `/` or `.`. -/
def goPathClean (path : String) : String :=
  if path = "" then "."
  else
    let rooted := path.data.head? = some '/'
    let comps := (goFieldsFunc '/' path).filter (fun c => c ≠ ".")
    let out := comps.foldl (goCleanStep rooted) []
    if rooted then "/" ++ String.intercalate "/" out
    else if out = [] then "." else String.intercalate "/" out

/-- Models `filepath.Join`: join the elements from the first non-empty one
with the separator, then `Clean`; all-empty input yields the empty string. -/
def goFilepathJoin : List String → String
  | [] => ""
  | e :: rest =>
      if e = "" then goFilepathJoin rest
      else goPathClean (String.intercalate "/" (e :: rest))

/-! ## logger.go : Src and TruncateFile -/

/-- `type Src struct { File string; Line int }` -/
structure Src where
  file : String
  line : Int
  deriving DecidableEq

/-- The pure core of `func (s *Src) TruncateFile()`: split the path into
directory and file name, split the directory into separator-free segments; if
a segment exists, join the last segment with the file name, else keep the file
name alone. -/
def truncateFilePath (path : String) : String :=
  let p := goFilepathSplit path
  let parts := goFieldsFunc '/' p.1
  match parts.getLast? with
  | some last => goFilepathJoin [last, p.2]
  | none => p.2

/-- `func (s *Src) TruncateFile()` (the mutation of `s.File`, returned). -/
def Src.TruncateFile (s : Src) : Src := { s with file := truncateFilePath s.file }

/-! ## logger.go : values, field maps and JSON marshalling

Go's `any` values stored in the field map.  `With` only inspects whether a
value is a `[]any` slice; `encoding/json.Marshal` fails on values of
unsupported type (channels, functions, ...), modelled by `unsupported`. -/

/-- A Go `any` value as stored in a `Data` map. -/
inductive GoVal where
  | str (s : String)
  | int (n : Int)
  | slice (xs : List GoVal)
  | unsupported (typeName : String)

/-- `type Data map[string]any`, as an association list with unique keys;
Go map iteration order is arbitrary, so list order carries no meaning beyond
fixing one iteration order. -/
def Data := List (String × GoVal)

/-- Go map read `set[key]` (`nil` map reads give `none`). -/
def dataGet : Data → String → Option GoVal
  | [], _ => none
  | (k', v') :: rest, k => if k' = k then some v' else dataGet rest k

/-- Go map write `set[key] = value`: replace in place, or add the key. -/
def dataSet : Data → String → GoVal → Data
  | [], k, v => [(k, v)]
  | (k', v') :: rest, k, v =>
      if k' = k then (k, v) :: rest else (k', v') :: dataSet rest k v

/-- The JSON documents `encoding/json.Marshal` produces for the values above. -/
inductive Json where
  | str (s : String)
  | num (n : Int)
  | arr (xs : List Json)
  | obj (fields : List (String × Json))

/-- The keys of a JSON object (empty for non-objects). -/
def Json.keys : Json → List String
  | .obj fields => fields.map Prod.fst
  | _ => []

/-- Field lookup in a JSON object field list. -/
def jsonLookup : List (String × Json) → String → Option Json
  | [], _ => none
  | (k', j) :: rest, k => if k' = k then some j else jsonLookup rest k

/-- Field lookup in a JSON object (none for non-objects). -/
def Json.getField : Json → String → Option Json
  | .obj fields, k => jsonLookup fields k
  | _, _ => none

mutual
/-- Models `json.Marshal` on one `any` value: strings and integers succeed,
slices marshal element-wise, unsupported types fail with Go's error text. -/
def marshalGoVal : GoVal → Except String Json
  | .str s => .ok (.str s)
  | .int n => .ok (.num n)
  | .unsupported typeName => .error ("json: unsupported type: " ++ typeName)
  | .slice xs =>
      match marshalGoValList xs with
      | .ok js => .ok (.arr js)
      | .error e => .error e

/-- Element-wise marshalling of a `[]any`; the first failure aborts. -/
def marshalGoValList : List GoVal → Except String (List Json)
  | [] => .ok []
  | v :: vs =>
      match marshalGoVal v with
      | .error e => .error e
      | .ok j =>
          match marshalGoValList vs with
          | .error e => .error e
          | .ok js => .ok (j :: js)
end

/-- Models `json.Marshal` on a `Data` map: each value marshals, the first
failure aborts the whole marshal.  (Go sorts map keys in the output; the
association-list order stands in for an output order, which no claim touches.) -/
def marshalDataFields : Data → Except String (List (String × Json))
  | [] => .ok []
  | (k, v) :: rest =>
      match marshalGoVal v with
      | .error e => .error e
      | .ok j =>
          match marshalDataFields rest with
          | .error e => .error e
          | .ok fields => .ok ((k, j) :: fields)

/-- `type WriteLog struct` from `logger.go`.  `Time` marshals to an RFC3339
string; the embedding keeps that string opaque in `time`. -/
structure WriteLog where
  time : String
  app : String
  level : String
  msg : String
  data : Data
  src : Src

/-- Models `json.Marshal` on a `WriteLog`: struct fields in declaration order
`time, app, level, msg, data, Src`, with `data` carrying `omitempty` (omitted
exactly when the map is empty); a failure inside `data` fails the marshal. -/
def WriteLog.marshal (w : WriteLog) : Except String Json :=
  match marshalDataFields w.data with
  | .error e => .error e
  | .ok dataFields =>
      .ok (.obj
        ([("time", .str w.time), ("app", .str w.app),
          ("level", .str w.level), ("msg", .str w.msg)]
         ++ (if w.data.isEmpty then [] else [("data", .obj dataFields)])
         ++ [("Src", .obj [("file", .str w.src.file), ("line", .num w.src.line)])]))

/-! ## writers.go and logger.go : sinks and the Logger -/

/-- The two `io.Writer` sink implementations of `writers.go`; the core only
needs their identity (which writer a logger holds), never their behaviour.
(`Writer` itself is taken by Mathlib, hence the `Io` prefix.) -/
inductive IoWriter where
  | stdOut
  | post (url : String)
  deriving DecidableEq

/-- `type Logger struct` (the `sync.Mutex` guards only the buffer
snapshot/reset and is not represented in this sequential embedding). -/
structure Logger where
  level : Level
  app : String
  data : Data
  out : IoWriter

/-- `func New(app string, logLevel Level) *Logger`: identity, threshold,
stdout sink, empty (nil) field buffer. -/
def New (app : String) (logLevel : Level) : Logger :=
  { level := logLevel, app := app, data := [], out := .stdOut }

/-- One key/value merge step of `Logger.With`: a fresh key is inserted as a
scalar; a key whose current value is a `[]any` gets the value appended; any
other collision replaces the value with the two-element slice `[old, new]`. -/
def mergeOne (set : Data) (key : String) (value : GoVal) : Data :=
  match dataGet set key with
  | none => dataSet set key value
  | some (.slice s) => dataSet set key (.slice (s ++ [value]))
  | some current => dataSet set key (.slice [current, value])

/-- The loops of `Logger.With`: fold every key/value pair of every argument
(a `Loggable`'s `Log()` map, modelled directly as its `Data`) into `set`,
which starts as a copy of the receiver's pending fields. -/
def withMerge (current : Data) (items : List Data) : Data :=
  items.foldl (fun set node => node.foldl (fun s kv => mergeOne s kv.1 kv.2) set) current

/-- `func (l *Logger) With(data ...Loggable) *Logger`: a new `Logger` value
with the receiver's identity, threshold and sink and the merged field set;
the receiver is only read. -/
def Logger.With (l : Logger) (items : List Data) : Logger :=
  { app := l.app, level := l.level, data := withMerge l.data items, out := l.out }

/-- What `output` hands to `l.out.Write`: the serialized record on success, or
the fallback diagnostic string built from the marshal error. -/
inductive Payload where
  | record (j : Json)
  | fallback (s : String)

/-- The observable outcome of one emission: the logger state afterwards and
the bytes written to the sink (`none` when the call was gated). -/
structure OutputResult where
  logger : Logger
  written : Option Payload

/-- The source-location block of `output`: `runtime.Caller` succeeded with a
file and line (truncate the file), or failed (`"???"` and line `0`). -/
def callerSrc : Option (String × Int) → Src
  | none => { file := "???", line := 0 }
  | some (file, line) => Src.TruncateFile { file := file, line := line }

/-- `func (l *Logger) output(callDepth int, level Level, msg string)`.
Effects appear as parameters: `now` is `time.Now().UTC()` already formatted,
`caller` is `runtime.Caller(callDepth)` (`none` when `!ok`), and `sinkErr` is
whatever error the sink's `Write` returns — the source discards it
(`_, _ = l.out.Write(data)`), so the parameter is unused. -/
def Logger.output (l : Logger) (now : String) (caller : Option (String × Int))
    (level : Level) (msg : String) (sinkErr : Option String) : OutputResult :=
  if level.toNat < l.level.toNat then
    { logger := { l with data := [] }, written := none }
  else
    let out : WriteLog :=
      { time := now, app := l.app, level := level.String, msg := msg,
        data := l.data, src := callerSrc caller }
    let payload : Payload :=
      match out.marshal with
      | .ok j => .record j
      | .error e => .fallback ("Logger unable to marshal log output to JSON: " ++ e)
    let _ := sinkErr
    { logger := { l with data := [] }, written := some payload }

/-! ## logger.go : severity methods and Fatal

Each severity method expands the printf format eagerly (`fmt.Sprintf`) and
calls `output` with its level constant; the embedding takes the already
formatted message, and the `callDepth` argument (which only steers
`runtime.Caller`) is subsumed by the explicit `caller` parameter. -/

/-- `func (l *Logger) Debug(msg string, args ...any)` -/
def Logger.Debug (l : Logger) (now : String) (caller : Option (String × Int))
    (msg : String) (sinkErr : Option String) : OutputResult :=
  l.output now caller .debugLevel msg sinkErr

/-- `func (l *Logger) Info(msg string, args ...any)` -/
def Logger.Info (l : Logger) (now : String) (caller : Option (String × Int))
    (msg : String) (sinkErr : Option String) : OutputResult :=
  l.output now caller .infoLevel msg sinkErr

/-- `func (l *Logger) Notice(msg string, args ...any)` -/
def Logger.Notice (l : Logger) (now : String) (caller : Option (String × Int))
    (msg : String) (sinkErr : Option String) : OutputResult :=
  l.output now caller .noticeLevel msg sinkErr

/-- `func (l *Logger) Warn(msg string, args ...any)` -/
def Logger.Warn (l : Logger) (now : String) (caller : Option (String × Int))
    (msg : String) (sinkErr : Option String) : OutputResult :=
  l.output now caller .warningLevel msg sinkErr

/-- `func (l *Logger) Error(msg string, args ...any)` -/
def Logger.Error (l : Logger) (now : String) (caller : Option (String × Int))
    (msg : String) (sinkErr : Option String) : OutputResult :=
  l.output now caller .errorLevel msg sinkErr

/-- `func (l *Logger) Critical(msg string, args ...any)` -/
def Logger.Critical (l : Logger) (now : String) (caller : Option (String × Int))
    (msg : String) (sinkErr : Option String) : OutputResult :=
  l.output now caller .criticalLevel msg sinkErr

/-- `func (l *Logger) Alert(msg string, args ...any)` -/
def Logger.Alert (l : Logger) (now : String) (caller : Option (String × Int))
    (msg : String) (sinkErr : Option String) : OutputResult :=
  l.output now caller .alertLevel msg sinkErr

/-- `func (l *Logger) Emergency(msg string, args ...any)` -/
def Logger.Emergency (l : Logger) (now : String) (caller : Option (String × Int))
    (msg : String) (sinkErr : Option String) : OutputResult :=
  l.output now caller .emergencyLevel msg sinkErr

/-- The outcome of `Fatal`: the emission's outcome plus the `os.Exit` status. -/
structure FatalResult where
  emission : OutputResult
  exitCode : Nat

/-- `func (l *Logger) Fatal(msg string, args ...any)`: emit at
`EmergencyLevel` through `output`, then `os.Exit(1)` unconditionally. -/
def Logger.Fatal (l : Logger) (now : String) (caller : Option (String × Int))
    (msg : String) (sinkErr : Option String) : FatalResult :=
  { emission := l.output now caller .emergencyLevel msg sinkErr, exitCode := 1 }

/-! ## Helper lemmas -/

/-- Both branches of `output` end with `l.data = make(map[string]any)`. -/
theorem output_clears_data (l : Logger) (now : String) (caller : Option (String × Int))
    (level : Level) (msg : String) (sinkErr : Option String) :
    (l.output now caller level msg sinkErr).logger.data = [] := by
  unfold Logger.output
  split <;> rfl

/-- In the gated branch nothing reaches the sink. -/
theorem output_written_gated (l : Logger) (now : String) (caller : Option (String × Int))
    (level : Level) (msg : String) (sinkErr : Option String)
    (h : level.toNat < l.level.toNat) :
    (l.output now caller level msg sinkErr).written = none := by
  unfold Logger.output
  rw [if_pos h]

/-- The record `output` builds in the emitting branch. -/
def outputRecord (l : Logger) (now : String) (caller : Option (String × Int))
    (level : Level) (msg : String) : WriteLog :=
  { time := now, app := l.app, level := level.String, msg := msg,
    data := l.data, src := callerSrc caller }

/-- In the emitting branch the sink receives the marshalled record, or the
fallback string when marshalling failed. -/
theorem output_written_emit (l : Logger) (now : String) (caller : Option (String × Int))
    (level : Level) (msg : String) (sinkErr : Option String)
    (h : ¬ level.toNat < l.level.toNat) :
    (l.output now caller level msg sinkErr).written =
      some (match (outputRecord l now caller level msg).marshal with
            | .ok j => .record j
            | .error e => .fallback ("Logger unable to marshal log output to JSON: " ++ e)) := by
  unfold Logger.output
  rw [if_neg h]
  rfl

/-- A `WriteLog` marshals to the object with the struct's field list; only the
`data` map can make marshalling fail. -/
theorem writeLog_marshal_eq (w : WriteLog) :
    w.marshal =
      match marshalDataFields w.data with
      | .error e => .error e
      | .ok dataFields =>
          .ok (.obj
            ([("time", .str w.time), ("app", .str w.app),
              ("level", .str w.level), ("msg", .str w.msg)]
             ++ (if w.data.isEmpty then [] else [("data", .obj dataFields)])
             ++ [("Src", .obj [("file", .str w.src.file), ("line", .num w.src.line)])])) := rfl

/-! ## Claim theorems -/

/-- Claim C1: a severity call at a level below the logger's threshold writes
nothing to the sink — no record is produced — and leaves the pending-field
buffer empty afterwards. -/
theorem gated_call_writes_nothing_and_clears_fields
    (l : Logger) (now : String) (caller : Option (String × Int)) (level : Level)
    (msg : String) (sinkErr : Option String)
    (h : level.toNat < l.level.toNat) :
    (l.output now caller level msg sinkErr).written = none ∧
    (l.output now caller level msg sinkErr).logger.data = [] :=
  ⟨output_written_gated l now caller level msg sinkErr h,
   output_clears_data l now caller level msg sinkErr⟩

/-- Witness for C1: an `Info` call against a `Warning`-thresholded logger with
a pending field is gated and clears that field. -/
theorem gated_call_witness :
    Level.infoLevel.toNat < Level.warningLevel.toNat ∧
    (({ New "svc" Level.warningLevel with data := [("k", GoVal.str "v")] } : Logger).output
        "2024-01-01T00:00:00Z" none Level.infoLevel "hello" none).written = none ∧
    (({ New "svc" Level.warningLevel with data := [("k", GoVal.str "v")] } : Logger).output
        "2024-01-01T00:00:00Z" none Level.infoLevel "hello" none).logger.data = [] :=
  ⟨by decide,
   gated_call_writes_nothing_and_clears_fields _ _ _ _ _ _ (by decide)⟩

/-- Claim C3: after any severity-method call — `Debug` through `Emergency`,
gated or emitted — the logger's pending-field buffer is empty. -/
theorem severity_calls_clear_field_buffer
    (l : Logger) (now : String) (caller : Option (String × Int)) (msg : String)
    (sinkErr : Option String) :
    (l.Debug now caller msg sinkErr).logger.data = [] ∧
    (l.Info now caller msg sinkErr).logger.data = [] ∧
    (l.Notice now caller msg sinkErr).logger.data = [] ∧
    (l.Warn now caller msg sinkErr).logger.data = [] ∧
    (l.Error now caller msg sinkErr).logger.data = [] ∧
    (l.Critical now caller msg sinkErr).logger.data = [] ∧
    (l.Alert now caller msg sinkErr).logger.data = [] ∧
    (l.Emergency now caller msg sinkErr).logger.data = [] :=
  ⟨output_clears_data l now caller .debugLevel msg sinkErr,
   output_clears_data l now caller .infoLevel msg sinkErr,
   output_clears_data l now caller .noticeLevel msg sinkErr,
   output_clears_data l now caller .warningLevel msg sinkErr,
   output_clears_data l now caller .errorLevel msg sinkErr,
   output_clears_data l now caller .criticalLevel msg sinkErr,
   output_clears_data l now caller .alertLevel msg sinkErr,
   output_clears_data l now caller .emergencyLevel msg sinkErr⟩

/-- Claim C4: `With` returns a new `Logger` with the receiver's application
name, threshold and sink; and because the receiver is only read, a `With` on
the original logger merges into the original's own field buffer (the fourth
conjunct holds for every `items2`, independent of any earlier derived
logger). -/
theorem With_preserves_identity_and_receiver_fields
    (l : Logger) (items items2 : List Data) :
    (l.With items).app = l.app ∧
    (l.With items).level = l.level ∧
    (l.With items).out = l.out ∧
    (l.With items2).data = withMerge l.data items2 :=
  ⟨rfl, rfl, rfl, rfl⟩

/-- Claim C6: `Fatal` emits through the shared `output` routine at
`EmergencyLevel` and then exits the process with status 1 — non-zero and
unconditional, whatever the logger state, marshalling outcome or sink error. -/
theorem fatal_emits_emergency_then_exits_nonzero
    (l : Logger) (now : String) (caller : Option (String × Int)) (msg : String)
    (sinkErr : Option String) :
    (l.Fatal now caller msg sinkErr).emission =
      l.output now caller Level.emergencyLevel msg sinkErr ∧
    (l.Fatal now caller msg sinkErr).exitCode = 1 ∧
    (l.Fatal now caller msg sinkErr).exitCode ≠ 0 :=
  ⟨rfl, rfl, Nat.one_ne_zero⟩

/-- Claim C7: `ToLevel` is a case-insensitive lookup in the fixed label table
(two strings with the same lower-casing resolve alike), any unmatched string
resolves to `Notice`, and the three sample inputs resolve as stated. -/
theorem toLevel_case_insensitive_default_notice :
    ToLevel "WARNING" = Level.warningLevel ∧
    ToLevel "warning" = Level.warningLevel ∧
    ToLevel "unknown-garbage" = Level.noticeLevel ∧
    (∀ s₁ s₂ : String, goToLower s₁ = goToLower s₂ → ToLevel s₁ = ToLevel s₂) ∧
    (∀ s : String, logLevelValues (goToLower s) = none → ToLevel s = Level.noticeLevel) := by
  refine ⟨by decide, by decide, by decide, ?_, ?_⟩
  · intro s₁ s₂ h
    unfold ToLevel
    rw [h]
  · intro s h
    unfold ToLevel
    rw [h]
    rfl

/-- Witness for C7: a mixed-case spelling resolves like its lower-casing, and
a string absent from the table resolves to `Notice`. -/
theorem toLevel_witness :
    goToLower "WaRning" = goToLower "warning" ∧
    ToLevel "WaRning" = ToLevel "warning" ∧
    logLevelValues (goToLower "nope") = none ∧
    ToLevel "nope" = Level.noticeLevel :=
  ⟨by decide,
   toLevel_case_insensitive_default_notice.2.2.2.1 "WaRning" "warning" (by decide),
   by decide,
   toLevel_case_insensitive_default_notice.2.2.2.2 "nope" (by decide)⟩

/-- Claim C9: source-location truncation is the stated total function — split
into directory and file name, split the directory into segments, join the
last segment (when one exists) with the file name, else keep the file name —
and maps the three sample paths as stated. -/
theorem truncateFile_algorithm_and_examples :
    (∀ path : String,
      truncateFilePath path =
        match (goFieldsFunc '/' (goFilepathSplit path).1).getLast? with
        | some last => goFilepathJoin [last, (goFilepathSplit path).2]
        | none => (goFilepathSplit path).2) ∧
    truncateFilePath "project/src/model/user.go" = "model/user.go" ∧
    truncateFilePath "main.go" = "main.go" ∧
    truncateFilePath "" = "" ∧
    Src.TruncateFile { file := "project/src/model/user.go", line := 42 } =
      { file := "model/user.go", line := 42 } :=
  ⟨fun _ => rfl, by decide, by decide, by decide, by decide⟩

/-- Claim C10: `ToLevel` inverts `Level.String` on each of the eight defined
levels. -/
theorem toLevel_string_roundtrip : ∀ l : Level, ToLevel (Level.String l) = l := by
  intro l
  cases l <;> rfl

/-- Claim C2: `With` starts from a copy of the current pending fields and for
each incoming key inserts a scalar when the key is absent, appends to the
value when the current value is a slice, and replaces a scalar collision with
the two-element slice of old and new; chaining two `With` calls on the same
key therefore yields the two-element sequence of both values. -/
theorem With_merge_algorithm :
    (∀ (l : Logger) (items : List Data), (l.With items).data = withMerge l.data items) ∧
    (∀ (set : Data) (k : String) (v : GoVal),
        dataGet set k = none → mergeOne set k v = dataSet set k v) ∧
    (∀ (set : Data) (k : String) (v : GoVal) (xs : List GoVal),
        dataGet set k = some (GoVal.slice xs) →
        mergeOne set k v = dataSet set k (GoVal.slice (xs ++ [v]))) ∧
    (∀ (set : Data) (k : String) (v old : GoVal),
        dataGet set k = some old → (∀ xs, old ≠ GoVal.slice xs) →
        mergeOne set k v = dataSet set k (GoVal.slice [old, v])) ∧
    (((New "app" Level.infoLevel).With [[("k", GoVal.str "v1")]]).With
        [[("k", GoVal.str "v2")]]).data
      = [("k", GoVal.slice [GoVal.str "v1", GoVal.str "v2"])] := by
  refine ⟨fun l items => rfl, ?_, ?_, ?_, rfl⟩
  · intro set k v h
    unfold mergeOne
    rw [h]
  · intro set k v xs h
    unfold mergeOne
    rw [h]
  · intro set k v old h hns
    unfold mergeOne
    rw [h]
    cases old with
    | str s => rfl
    | int n => rfl
    | slice xs => exact absurd rfl (hns xs)
    | unsupported t => rfl

/-- Witness for C2: a scalar collision on key `k` becomes the two-element
slice of old and new value. -/
theorem With_merge_witness :
    dataGet ([("k", GoVal.str "v1")] : Data) "k" = some (GoVal.str "v1") ∧
    mergeOne [("k", GoVal.str "v1")] "k" (GoVal.str "v2")
      = dataSet [("k", GoVal.str "v1")] "k"
          (GoVal.slice [GoVal.str "v1", GoVal.str "v2"]) :=
  ⟨rfl,
   With_merge_algorithm.2.2.2.1 [("k", GoVal.str "v1")] "k" (GoVal.str "v2")
     (GoVal.str "v1") rfl (fun _ h => GoVal.noConfusion h)⟩

/-- The record built by the emitting branch reads its `data` from the
logger's buffer. -/
theorem outputRecord_data (l : Logger) (now : String) (caller : Option (String × Int))
    (level : Level) (msg : String) :
    (outputRecord l now caller level msg).data = l.data := rfl

/-- Claim C5: severity calls never surface an error — when the record cannot
be marshalled the sink receives the fallback diagnostic string built from the
marshal error, and the error the sink's own `Write` returns has no effect on
the call's outcome at all. -/
theorem logging_never_fails_caller :
    (∀ (l : Logger) (now : String) (caller : Option (String × Int)) (level : Level)
        (msg : String) (sinkErr : Option String) (e : String),
        ¬ level.toNat < l.level.toNat →
        marshalDataFields l.data = .error e →
        (l.output now caller level msg sinkErr).written =
          some (.fallback ("Logger unable to marshal log output to JSON: " ++ e))) ∧
    (∀ (l : Logger) (now : String) (caller : Option (String × Int)) (level : Level)
        (msg : String) (e₁ e₂ : Option String),
        l.output now caller level msg e₁ = l.output now caller level msg e₂) := by
  constructor
  · intro l now caller level msg sinkErr e hgate hm
    rw [output_written_emit l now caller level msg sinkErr hgate]
    have hmar : (outputRecord l now caller level msg).marshal = .error e := by
      rw [writeLog_marshal_eq, outputRecord_data, hm]
    rw [hmar]
  · intro l now caller level msg e₁ e₂
    rfl

/-- Witness for C5: a field holding a channel value makes marshalling fail,
and the sink receives the fallback diagnostic instead of a record. -/
theorem logging_never_fails_witness :
    ¬ Level.errorLevel.toNat < Level.infoLevel.toNat ∧
    marshalDataFields ([("ch", GoVal.unsupported "chan int")] : Data)
      = .error "json: unsupported type: chan int" ∧
    (({ New "svc" Level.infoLevel with
          data := [("ch", GoVal.unsupported "chan int")] } : Logger).output
        "2024-01-01T00:00:00Z" none Level.errorLevel "m" none).written
      = some (.fallback
          "Logger unable to marshal log output to JSON: json: unsupported type: chan int") :=
  ⟨by decide, rfl,
   logging_never_fails_caller.1 _ _ _ _ _ _ _ (by decide) rfl⟩

/-- Claim C8: every emitted record is a JSON object whose keys are `time`,
`app`, `level`, `msg`, then `data` exactly when the accumulated field map is
non-empty, then `Src`; `level` holds the level's string label and `Src` is an
object with keys `file` and `line`. -/
theorem emitted_record_schema
    (l : Logger) (now : String) (caller : Option (String × Int)) (level : Level)
    (msg : String) (sinkErr : Option String) (j : Json)
    (hw : (l.output now caller level msg sinkErr).written = some (.record j)) :
    j.keys = ["time", "app", "level", "msg"]
        ++ (if l.data.isEmpty then [] else ["data"]) ++ ["Src"] ∧
    j.getField "level" = some (.str (Level.String level)) ∧
    (∃ sj, j.getField "Src" = some sj ∧ sj.keys = ["file", "line"]) ∧
    ("data" ∈ j.keys ↔ l.data.isEmpty = false) := by
  by_cases hg : level.toNat < l.level.toNat
  · rw [output_written_gated l now caller level msg sinkErr hg] at hw
    exact Option.noConfusion hw
  · rw [output_written_emit l now caller level msg sinkErr hg] at hw
    cases hmd : marshalDataFields l.data with
    | error e =>
        have hmar : (outputRecord l now caller level msg).marshal = .error e := by
          rw [writeLog_marshal_eq, outputRecord_data, hmd]
        rw [hmar] at hw
        injection hw with h
        exact Payload.noConfusion h
    | ok dataFields =>
        have hmar : (outputRecord l now caller level msg).marshal =
            .ok (.obj
              ([("time", .str now), ("app", .str l.app),
                ("level", .str (Level.String level)), ("msg", .str msg)]
               ++ (if l.data.isEmpty then [] else [("data", .obj dataFields)])
               ++ [("Src", .obj [("file", .str (callerSrc caller).file),
                                 ("line", .num (callerSrc caller).line)])])) := by
          rw [writeLog_marshal_eq, outputRecord_data, hmd]
          rfl
        rw [hmar] at hw
        injection hw with h
        injection h with h
        subst h
        cases hde : l.data.isEmpty with
        | true =>
            simp only [hde, ite_true]
            refine ⟨by simp [Json.keys], by simp [Json.getField, jsonLookup], ?_, ?_⟩
            · exact ⟨Json.obj [("file", .str (callerSrc caller).file),
                              ("line", .num (callerSrc caller).line)],
                     by simp [Json.getField, jsonLookup], rfl⟩
            · simp [Json.keys]
        | false =>
            simp only [hde, ite_false]
            refine ⟨by simp [Json.keys], by simp [Json.getField, jsonLookup], ?_, ?_⟩
            · exact ⟨Json.obj [("file", .str (callerSrc caller).file),
                              ("line", .num (callerSrc caller).line)],
                     by simp [Json.getField, jsonLookup], rfl⟩
            · simp [Json.keys]

/-- Witness for C8: a concrete emission with one pending field yields the
record object with keys `time`, `app`, `level`, `msg`, `data`, `Src`. -/
theorem emitted_record_schema_witness :
    (({ level := Level.infoLevel, app := "svc", data := [("k", GoVal.str "v")],
        out := IoWriter.stdOut } : Logger).output "2024-01-01T00:00:00Z"
        (some ("a/b/c.go", 7)) Level.errorLevel "m" none).written
      = some (.record (.obj
          [("time", .str "2024-01-01T00:00:00Z"), ("app", .str "svc"),
           ("level", .str "error"), ("msg", .str "m"),
           ("data", .obj [("k", .str "v")]),
           ("Src", .obj [("file", .str "b/c.go"), ("line", .num 7)])])) ∧
    (Json.obj
      [("time", .str "2024-01-01T00:00:00Z"), ("app", .str "svc"),
       ("level", .str "error"), ("msg", .str "m"),
       ("data", .obj [("k", .str "v")]),
       ("Src", .obj [("file", .str "b/c.go"), ("line", .num 7)])]).keys
      = ["time", "app", "level", "msg", "data", "Src"] :=
  ⟨rfl,
   (emitted_record_schema
      { level := Level.infoLevel, app := "svc", data := [("k", GoVal.str "v")],
        out := IoWriter.stdOut }
      "2024-01-01T00:00:00Z" (some ("a/b/c.go", 7)) Level.errorLevel "m" none _ rfl).1⟩
